import Mathlib

/-!
Verification of the robust-loss weight-function resolver of
`cpp/open3d/t/pipelines/registration/RobustKernelImpl.h`
(the `DISPATCH_ROBUST_KERNEL_FUNCTION` macro), shallowly embedded over the
real numbers: the macro instantiates the same formula text for `float` and
for `double`, and both instantiations denote the real-valued formulas below.
The fallible dispatch (its `else` branch calls `utility::LogError`) is
embedded as an `Except`-returning resolver.
-/

set_option maxHeartbeats 1000000

open Filter Topology

/-- Scalar precision tag of the dispatch (`scalar_t` is `float` or `double`).
The macro body is the same source text for both instantiations, so in the
real-valued embedding the resolved formulas do not depend on this tag. -/
inductive Precision where
  | single
  | double
deriving DecidableEq

/-- Modelled from the spec: the closed enumeration of method variants
`{L2, L1, Huber, Cauchy, GemanMcClure, Tukey, Generalized}` declared in
`RobustKernel.h` (not among the sources at hand), using the constructor
names the dispatch macro compares against. -/
inductive RobustKernelMethod where
  | L2Loss
  | L1Loss
  | HuberLoss
  | CauchyLoss
  | GMLoss
  | TukeyLoss
  | GeneralizedLoss
deriving DecidableEq

/-- Modelled from the spec: the underlying integer codes of the C++ scoped
enum, in declaration order.  A C++ scoped enum admits out-of-range underlying
values, which is how a method tag that "is not one of the seven known
variants" reaches the dispatch; those are exactly the `Nat` codes `≥ 7`. -/
def methodCode : RobustKernelMethod → Nat
  | .L2Loss => 0
  | .L1Loss => 1
  | .HuberLoss => 2
  | .CauchyLoss => 3
  | .GMLoss => 4
  | .TukeyLoss => 5
  | .GeneralizedLoss => 6

/-- The macro `OPEN3D_SQUARE(x)` from `GeometryMacros.h`: the square `x²`. -/
def OPEN3D_SQUARE (x : ℝ) : ℝ := x ^ 2

/-- Modelled from the spec: the tolerance of the approximate-equality test
`OPEN3D_IsClose` of `GeometryMacros.h` (not among the sources at hand); the
spec only says it is "a small fixed tolerance" and recommends naming it. -/
def OPEN3D_CLOSE_TOL : ℝ := 1e-8

/-- Modelled from the spec: `OPEN3D_IsClose(x, y)` is an approximate-equality
test of `x` against `y` within the small fixed tolerance, not exact
floating-point equality. -/
def OPEN3D_IsClose (x y : ℝ) : Prop := |x - y| < OPEN3D_CLOSE_TOL

noncomputable instance (x y : ℝ) : Decidable (OPEN3D_IsClose x y) :=
  inferInstanceAs (Decidable (|x - y| < OPEN3D_CLOSE_TOL))

/-- The `L2Loss` branch weight: `return 1.0;`. -/
def L2Weight : ℝ → ℝ := fun _residual => 1

/-- The `L1Loss` branch weight: `return 1.0 / abs(residual);`. -/
noncomputable def L1Weight : ℝ → ℝ := fun residual => 1 / |residual|

/-- The `HuberLoss` branch weight:
`return scaling_parameter / OPEN3D_MAX(abs(residual), scaling_parameter);`. -/
noncomputable def HuberWeight (scaling_parameter : ℝ) : ℝ → ℝ :=
  fun residual => scaling_parameter / max |residual| scaling_parameter

/-- The `CauchyLoss` branch weight:
`return 1.0 / (1.0 + OPEN3D_SQUARE(residual / scaling_parameter));`. -/
noncomputable def CauchyWeight (scaling_parameter : ℝ) : ℝ → ℝ :=
  fun residual => 1 / (1 + OPEN3D_SQUARE (residual / scaling_parameter))

/-- The `GMLoss` branch weight: `return scaling_parameter /
OPEN3D_SQUARE(scaling_parameter + OPEN3D_SQUARE(residual));`. -/
noncomputable def GMWeight (scaling_parameter : ℝ) : ℝ → ℝ :=
  fun residual =>
    scaling_parameter / OPEN3D_SQUARE (scaling_parameter + OPEN3D_SQUARE residual)

/-- The `TukeyLoss` branch weight: `return OPEN3D_SQUARE(1.0 -
OPEN3D_SQUARE(OPEN3D_MIN(1.0, abs(residual) / scaling_parameter)));`. -/
noncomputable def TukeyWeight (scaling_parameter : ℝ) : ℝ → ℝ :=
  fun residual =>
    OPEN3D_SQUARE (1 - OPEN3D_SQUARE (min 1 (|residual| / scaling_parameter)))

/-- The `GeneralizedLoss` sub-branch for `OPEN3D_IsClose(shape_parameter, 2.0)`:
the constant `1.0 / OPEN3D_SQUARE(scaling_parameter)`. -/
noncomputable def GeneralizedConstWeight (scaling_parameter : ℝ) : ℝ → ℝ :=
  fun _residual => 1 / OPEN3D_SQUARE scaling_parameter

/-- The `GeneralizedLoss` sub-branch for `OPEN3D_IsClose(shape_parameter, 0.0)`:
`return 2.0 / (OPEN3D_SQUARE(residual) + 2 * OPEN3D_SQUARE(scaling_parameter));`. -/
noncomputable def GeneralizedZeroWeight (scaling_parameter : ℝ) : ℝ → ℝ :=
  fun residual =>
    2 / (OPEN3D_SQUARE residual + 2 * OPEN3D_SQUARE scaling_parameter)

/-- The `GeneralizedLoss` sub-branch for `shape_parameter < -1e7`:
`return exp(OPEN3D_SQUARE(residual / scaling_parameter) / (-2.0)) /
OPEN3D_SQUARE(scaling_parameter);`. -/
noncomputable def GeneralizedNegInfWeight (scaling_parameter : ℝ) : ℝ → ℝ :=
  fun residual =>
    Real.exp (OPEN3D_SQUARE (residual / scaling_parameter) / (-2)) /
      OPEN3D_SQUARE scaling_parameter

/-- The `GeneralizedLoss` general sub-branch:
`return pow((OPEN3D_SQUARE(residual / scaling_parameter) /
abs(shape_parameter - 2.0) + 1), ((shape_parameter / 2.0) - 1.0)) /
OPEN3D_SQUARE(scaling_parameter);`. -/
noncomputable def GeneralizedGeneralWeight (scaling_parameter shape_parameter : ℝ) :
    ℝ → ℝ :=
  fun residual =>
    (OPEN3D_SQUARE (residual / scaling_parameter) / |shape_parameter - 2| + 1) ^
        (shape_parameter / 2 - 1) /
      OPEN3D_SQUARE scaling_parameter

/-- The dispatch macro `DISPATCH_ROBUST_KERNEL_FUNCTION(METHOD, scalar_t,
scaling_parameter, shape_parameter, ...)`: an if-else chain on `METHOD`
that binds the specialized per-residual weight function and hands it to the
continuation, or calls `utility::LogError("Unsupported method.")` on any
unknown method tag.  Embedded as a resolver returning the bound weight
function, with the fatal error path as `Except.error`. -/
noncomputable def DISPATCH_ROBUST_KERNEL_FUNCTION (_precision : Precision)
    (METHOD : Nat) (scaling_parameter shape_parameter : ℝ) :
    Except String (ℝ → ℝ) :=
  if METHOD = methodCode .L2Loss then
    Except.ok L2Weight
  else if METHOD = methodCode .L1Loss then
    Except.ok L1Weight
  else if METHOD = methodCode .HuberLoss then
    Except.ok (HuberWeight scaling_parameter)
  else if METHOD = methodCode .CauchyLoss then
    Except.ok (CauchyWeight scaling_parameter)
  else if METHOD = methodCode .GMLoss then
    Except.ok (GMWeight scaling_parameter)
  else if METHOD = methodCode .TukeyLoss then
    Except.ok (TukeyWeight scaling_parameter)
  else if METHOD = methodCode .GeneralizedLoss then
    if OPEN3D_IsClose shape_parameter 2 then
      Except.ok (GeneralizedConstWeight scaling_parameter)
    else if OPEN3D_IsClose shape_parameter 0 then
      Except.ok (GeneralizedZeroWeight scaling_parameter)
    else if shape_parameter < -1e7 then
      Except.ok (GeneralizedNegInfWeight scaling_parameter)
    else
      Except.ok (GeneralizedGeneralWeight scaling_parameter shape_parameter)
  else
    Except.error "Unsupported method."

/-- Resolve-then-apply: resolve the configuration once, then evaluate the
resolved weight function at one residual, as the consumer loop does. -/
noncomputable def resolveThenApply (precision : Precision) (METHOD : Nat)
    (scaling_parameter shape_parameter residual : ℝ) : Except String ℝ :=
  (DISPATCH_ROBUST_KERNEL_FUNCTION precision METHOD scaling_parameter
      shape_parameter).map (fun w => w residual)

/-- The closed-form weight table of spec §4.3, transcribed from the spec's
words (`r` = residual, `s` = scaling parameter, `a` = shape parameter), for
comparison with the dispatch above. -/
noncomputable def specTableWeight (m : RobustKernelMethod) (s a r : ℝ) : ℝ :=
  match m with
  | .L2Loss => 1
  | .L1Loss => 1 / |r|
  | .HuberLoss => s / max |r| s
  | .CauchyLoss => 1 / (1 + (r / s) ^ 2)
  | .GMLoss => s / (s + r ^ 2) ^ 2
  | .TukeyLoss => (1 - min 1 (|r| / s) ^ 2) ^ 2
  | .GeneralizedLoss =>
      if OPEN3D_IsClose a 2 then 1 / s ^ 2
      else if OPEN3D_IsClose a 0 then 2 / (r ^ 2 + 2 * s ^ 2)
      else if a < -1e7 then Real.exp (-(r / s) ^ 2 / 2) / s ^ 2
      else ((r / s) ^ 2 / |a - 2| + 1) ^ (a / 2 - 1) / s ^ 2

/-- Claim C1: for every one of the seven top-level methods and every residual,
the weight function produced by resolution returns exactly the closed-form
value of the §4.3 table for that method, for both single- and double-precision
resolution; and the L2 weight is the constant 1 for every residual,
independent of the scaling parameter. -/
theorem weight_matches_table (precision : Precision) (m : RobustKernelMethod)
    (s a r : ℝ) :
    resolveThenApply precision (methodCode m) s a r =
        Except.ok (specTableWeight m s a r) ∧
    resolveThenApply precision (methodCode .L2Loss) s a r = Except.ok 1 := by
  constructor
  · cases m with
    | GeneralizedLoss =>
        simp only [resolveThenApply, DISPATCH_ROBUST_KERNEL_FUNCTION,
          methodCode, specTableWeight]
        norm_num
        split_ifs <;>
          simp [GeneralizedConstWeight, GeneralizedZeroWeight,
            GeneralizedNegInfWeight, GeneralizedGeneralWeight, OPEN3D_SQUARE,
            Except.map, div_neg, neg_div]
    | _ =>
        simp [resolveThenApply, DISPATCH_ROBUST_KERNEL_FUNCTION, methodCode,
          specTableWeight, L2Weight, L1Weight, HuberWeight, CauchyWeight,
          GMWeight, TukeyWeight, OPEN3D_SQUARE, Except.map]
  · simp [resolveThenApply, DISPATCH_ROBUST_KERNEL_FUNCTION, methodCode,
      L2Weight, Except.map]

/-- Claim C2: the four Generalized sub-cases are mutually exclusive and are
selected in priority order (`a ≈ 2`, then `a ≈ 0`, then `a < -1e7`, else the
general formula): at `shape_parameter` exactly 2 the constant branch `1/s²`
is taken, at exactly 0 the branch `2/(r² + 2s²)`, at `-2e7` the
`exp(-(r/s)²/2)/s²` branch, and at 1 the general branch, whose division by
`|a - 2|` can never see `|a - 2| = 0`. -/
theorem generalized_subcase_selection (precision : Precision) (s a r : ℝ) :
    (¬ (OPEN3D_IsClose a 2 ∧ OPEN3D_IsClose a 0)) ∧
    (¬ (OPEN3D_IsClose a 2 ∧ a < -1e7)) ∧
    (¬ (OPEN3D_IsClose a 0 ∧ a < -1e7)) ∧
    (¬ OPEN3D_IsClose a 2 → |a - 2| ≠ 0) ∧
    resolveThenApply precision (methodCode .GeneralizedLoss) s 2 r =
      Except.ok (1 / s ^ 2) ∧
    resolveThenApply precision (methodCode .GeneralizedLoss) s 0 r =
      Except.ok (2 / (r ^ 2 + 2 * s ^ 2)) ∧
    resolveThenApply precision (methodCode .GeneralizedLoss) s (-2e7) r =
      Except.ok (Real.exp (-(r / s) ^ 2 / 2) / s ^ 2) ∧
    resolveThenApply precision (methodCode .GeneralizedLoss) s 1 r =
      Except.ok (((r / s) ^ 2 / |(1 : ℝ) - 2| + 1) ^ ((1 : ℝ) / 2 - 1) /
        s ^ 2) := by
  refine ⟨?_, ?_, ?_, ?_, ?_, ?_, ?_, ?_⟩
  · rintro ⟨h2, h0⟩
    rw [OPEN3D_IsClose, OPEN3D_CLOSE_TOL, abs_lt] at h2 h0
    have := h2.1
    have := h0.2
    norm_num at *
    linarith
  · rintro ⟨h2, hlt⟩
    rw [OPEN3D_IsClose, OPEN3D_CLOSE_TOL, abs_lt] at h2
    have := h2.1
    norm_num at *
    linarith
  · rintro ⟨h0, hlt⟩
    rw [OPEN3D_IsClose, OPEN3D_CLOSE_TOL, abs_lt] at h0
    have := h0.1
    norm_num at *
    linarith
  · intro h2 habs
    exact h2 (by rw [OPEN3D_IsClose, habs]; norm_num [OPEN3D_CLOSE_TOL])
  · norm_num [resolveThenApply, DISPATCH_ROBUST_KERNEL_FUNCTION, methodCode,
      OPEN3D_IsClose, OPEN3D_CLOSE_TOL, abs_lt, Except.map,
      GeneralizedConstWeight, OPEN3D_SQUARE]
  · norm_num [resolveThenApply, DISPATCH_ROBUST_KERNEL_FUNCTION, methodCode,
      OPEN3D_IsClose, OPEN3D_CLOSE_TOL, abs_lt, Except.map,
      GeneralizedZeroWeight, OPEN3D_SQUARE]
  · norm_num [resolveThenApply, DISPATCH_ROBUST_KERNEL_FUNCTION, methodCode,
      OPEN3D_IsClose, OPEN3D_CLOSE_TOL, abs_lt, Except.map,
      GeneralizedNegInfWeight, OPEN3D_SQUARE, div_neg, neg_div]
  · norm_num [resolveThenApply, DISPATCH_ROBUST_KERNEL_FUNCTION, methodCode,
      OPEN3D_IsClose, OPEN3D_CLOSE_TOL, abs_lt, Except.map,
      GeneralizedGeneralWeight, OPEN3D_SQUARE]

/-- Claim C3: for every scaling parameter `s > 0` the Huber weight equals 1
for `|r| ≤ s` and `s/|r|` for `|r| > s`, is continuous at the boundary
`|r| = s`, and the configuration `{Huber, scaling_parameter = 1}` maps the
residuals `[0, 0.5, 1, 2, -3]` to the weights `[1, 1, 1, 1/2, 1/3]`. -/
theorem huber_weight_spec (precision : Precision) (s a r r0 : ℝ)
    (hs : 0 < s) (_hr0 : |r0| = s) :
    DISPATCH_ROBUST_KERNEL_FUNCTION precision (methodCode .HuberLoss) s a =
      Except.ok (HuberWeight s) ∧
    (|r| ≤ s → HuberWeight s r = 1) ∧
    (s < |r| → HuberWeight s r = s / |r|) ∧
    ContinuousAt (HuberWeight s) r0 ∧
    resolveThenApply precision (methodCode .HuberLoss) 1 a 0 = Except.ok 1 ∧
    resolveThenApply precision (methodCode .HuberLoss) 1 a 0.5 = Except.ok 1 ∧
    resolveThenApply precision (methodCode .HuberLoss) 1 a 1 = Except.ok 1 ∧
    resolveThenApply precision (methodCode .HuberLoss) 1 a 2 =
      Except.ok (1 / 2) ∧
    resolveThenApply precision (methodCode .HuberLoss) 1 a (-3) =
      Except.ok (1 / 3) := by
  refine ⟨?_, ?_, ?_, ?_, ?_, ?_, ?_, ?_, ?_⟩
  · simp [DISPATCH_ROBUST_KERNEL_FUNCTION, methodCode]
  · intro h
    rw [HuberWeight]
    rw [max_eq_right h]
    exact div_self hs.ne'
  · intro h
    rw [HuberWeight]
    rw [max_eq_left h.le]
  · show ContinuousAt (fun residual => s / max |residual| s) r0
    exact (continuous_const.div (continuous_abs.max continuous_const)
      (fun x => ne_of_gt (lt_of_lt_of_le hs (le_max_right _ _)))).continuousAt
  · norm_num [resolveThenApply, DISPATCH_ROBUST_KERNEL_FUNCTION, methodCode,
      HuberWeight, Except.map, abs_of_nonneg, abs_of_nonpos]
  · norm_num [resolveThenApply, DISPATCH_ROBUST_KERNEL_FUNCTION, methodCode,
      HuberWeight, Except.map, abs_of_nonneg, abs_of_nonpos]
  · norm_num [resolveThenApply, DISPATCH_ROBUST_KERNEL_FUNCTION, methodCode,
      HuberWeight, Except.map, abs_of_nonneg, abs_of_nonpos]
  · norm_num [resolveThenApply, DISPATCH_ROBUST_KERNEL_FUNCTION, methodCode,
      HuberWeight, Except.map, abs_of_nonneg, abs_of_nonpos]
  · norm_num [resolveThenApply, DISPATCH_ROBUST_KERNEL_FUNCTION, methodCode,
      HuberWeight, Except.map, abs_of_nonneg, abs_of_nonpos]

/-- Witness for C3 at the concrete configuration `s = 1`, boundary point
`r0 = 1`, residual `r = 2`: the hypotheses `0 < 1` and `|1| = 1` hold and the
resolved Huber weight at residual 2 is `1/2`. -/
theorem huber_weight_spec_witness :
    (0 : ℝ) < 1 ∧ |(1 : ℝ)| = 1 ∧
    resolveThenApply .double (methodCode .HuberLoss) 1 0 2 =
      Except.ok (1 / 2) :=
  ⟨by norm_num, by norm_num,
    (huber_weight_spec .double 1 0 2 1 (by norm_num)
        (by norm_num)).2.2.2.2.2.2.2.1⟩

/-- Each resolved formula reads the residual only through `|r|` or `r²`, so
negating the residual leaves the Cauchy weight unchanged. -/
lemma CauchyWeight_neg (s r : ℝ) : CauchyWeight s (-r) = CauchyWeight s r := by
  simp [CauchyWeight, OPEN3D_SQUARE, neg_div]

/-- Negating the residual leaves the Geman-McClure weight unchanged. -/
lemma GMWeight_neg (s r : ℝ) : GMWeight s (-r) = GMWeight s r := by
  simp [GMWeight, OPEN3D_SQUARE]

/-- Claim C5: for every scaling parameter `s > 0` the Tukey weight is exactly
0 for `|r| ≥ s` and strictly decreasing in the residual magnitude on `[0, s]`. -/
theorem tukey_weight_spec (precision : Precision) (s a r x y : ℝ)
    (hs : 0 < s) (hx : 0 ≤ x) (hxy : x < y) (hys : y ≤ s) :
    DISPATCH_ROBUST_KERNEL_FUNCTION precision (methodCode .TukeyLoss) s a =
      Except.ok (TukeyWeight s) ∧
    (s ≤ |r| → TukeyWeight s r = 0) ∧
    TukeyWeight s y < TukeyWeight s x := by
  refine ⟨?_, ?_, ?_⟩
  · simp [DISPATCH_ROBUST_KERNEL_FUNCTION, methodCode]
  · intro h
    have h1 : (1 : ℝ) ≤ |r| / s := (one_le_div hs).mpr h
    simp [TukeyWeight, OPEN3D_SQUARE, min_eq_left h1]
  · have hy0 : 0 ≤ y := le_trans hx hxy.le
    have hu : 0 ≤ x / s := div_nonneg hx hs.le
    have hv : 0 ≤ y / s := div_nonneg hy0 hs.le
    have huv : x / s < y / s := by gcongr
    have hv1 : y / s ≤ 1 := (div_le_one hs).mpr hys
    have hu1 : x / s < 1 := lt_of_lt_of_le huv hv1
    simp only [TukeyWeight, abs_of_nonneg hx, abs_of_nonneg hy0,
      min_eq_right hv1, min_eq_right hu1.le, OPEN3D_SQUARE]
    have h2 : (x / s) ^ 2 < (y / s) ^ 2 := pow_lt_pow_left₀ huv hu two_ne_zero
    have h3 : (y / s) ^ 2 ≤ 1 := by nlinarith
    exact pow_lt_pow_left₀ (by linarith) (by linarith) two_ne_zero

/-- Witness for C5 at `s = 1`, `x = 0`, `y = 1/2`: the hypotheses hold and
the Tukey weight strictly decreases from residual magnitude 0 to 1/2. -/
theorem tukey_weight_spec_witness :
    (0 : ℝ) < 1 ∧ (0 : ℝ) ≤ 0 ∧ (0 : ℝ) < 1 / 2 ∧ (1 / 2 : ℝ) ≤ 1 ∧
    TukeyWeight 1 (1 / 2) < TukeyWeight 1 0 :=
  ⟨by norm_num, by norm_num, by norm_num, by norm_num,
    (tukey_weight_spec .single 1 0 2 0 (1 / 2) (by norm_num) (by norm_num)
        (by norm_num) (by norm_num)).2.2⟩

/-- Claim C6: for every scaling parameter `s > 0` the Cauchy and
Geman-McClure weights are strictly decreasing in the residual magnitude, tend
to 0 as the residual magnitude tends to infinity, and at residual 0 the
Cauchy weight is 1 while the Geman-McClure weight is `1/s`. -/
theorem cauchy_gm_weight_spec (precision : Precision) (s a x y : ℝ)
    (hs : 0 < s) (hx : 0 ≤ x) (hxy : x < y) :
    DISPATCH_ROBUST_KERNEL_FUNCTION precision (methodCode .CauchyLoss) s a =
      Except.ok (CauchyWeight s) ∧
    DISPATCH_ROBUST_KERNEL_FUNCTION precision (methodCode .GMLoss) s a =
      Except.ok (GMWeight s) ∧
    CauchyWeight s y < CauchyWeight s x ∧
    GMWeight s y < GMWeight s x ∧
    Filter.Tendsto (CauchyWeight s) Filter.atTop (nhds 0) ∧
    Filter.Tendsto (CauchyWeight s) Filter.atBot (nhds 0) ∧
    Filter.Tendsto (GMWeight s) Filter.atTop (nhds 0) ∧
    Filter.Tendsto (GMWeight s) Filter.atBot (nhds 0) ∧
    CauchyWeight s 0 = 1 ∧
    GMWeight s 0 = 1 / s := by
  have hcau : Filter.Tendsto (CauchyWeight s) Filter.atTop (nhds 0) := by
    have hden : Filter.Tendsto (fun r : ℝ => 1 + (r / s) ^ 2)
        Filter.atTop Filter.atTop :=
      tendsto_atTop_add_const_left Filter.atTop 1
        ((tendsto_pow_atTop two_ne_zero).comp
          (Filter.tendsto_id.atTop_div_const hs))
    have heq : CauchyWeight s = fun r : ℝ => (1 + (r / s) ^ 2)⁻¹ := by
      funext r
      simp [CauchyWeight, OPEN3D_SQUARE, one_div]
    rw [heq]
    exact hden.inv_tendsto_atTop
  have hgm : Filter.Tendsto (GMWeight s) Filter.atTop (nhds 0) := by
    have hden : Filter.Tendsto (fun r : ℝ => (s + r ^ 2) ^ 2)
        Filter.atTop Filter.atTop :=
      (tendsto_pow_atTop two_ne_zero).comp
        (tendsto_atTop_add_const_left Filter.atTop s
          (tendsto_pow_atTop two_ne_zero))
    simpa [GMWeight, OPEN3D_SQUARE] using
      Filter.Tendsto.div_atTop tendsto_const_nhds hden
  refine ⟨?_, ?_, ?_, ?_, hcau, ?_, hgm, ?_, ?_, ?_⟩
  · simp [DISPATCH_ROBUST_KERNEL_FUNCTION, methodCode]
  · simp [DISPATCH_ROBUST_KERNEL_FUNCTION, methodCode]
  · have hu : 0 ≤ x / s := div_nonneg hx hs.le
    have huv : x / s < y / s := by gcongr
    have h2 : (x / s) ^ 2 < (y / s) ^ 2 := pow_lt_pow_left₀ huv hu two_ne_zero
    simp only [CauchyWeight, OPEN3D_SQUARE]
    exact one_div_lt_one_div_of_lt (by positivity) (by linarith)
  · have h2 : x ^ 2 < y ^ 2 := pow_lt_pow_left₀ hxy hx two_ne_zero
    simp only [GMWeight, OPEN3D_SQUARE]
    exact div_lt_div_of_pos_left hs (by positivity)
      (pow_lt_pow_left₀ (by linarith) (by positivity) two_ne_zero)
  · simpa [Function.comp_def, CauchyWeight_neg] using
      hcau.comp tendsto_neg_atBot_atTop
  · simpa [Function.comp_def, GMWeight_neg] using
      hgm.comp tendsto_neg_atBot_atTop
  · simp [CauchyWeight, OPEN3D_SQUARE]
  · rw [GMWeight]
    simp only [OPEN3D_SQUARE]
    rw [show (0 : ℝ) ^ 2 = 0 by norm_num, add_zero, sq]
    rw [div_mul_eq_div_div, div_self hs.ne']

/-- Witness for C6 at `s = 2`, `x = 1`, `y = 3`: the hypotheses hold, the
Geman-McClure weight strictly decreases from magnitude 1 to 3, and at
residual 0 it equals `1/2`. -/
theorem cauchy_gm_weight_spec_witness :
    (0 : ℝ) < 2 ∧ (0 : ℝ) ≤ 1 ∧ (1 : ℝ) < 3 ∧
    GMWeight 2 3 < GMWeight 2 1 ∧ GMWeight 2 0 = 1 / 2 :=
  ⟨by norm_num, by norm_num, by norm_num,
    (cauchy_gm_weight_spec .double 2 0 1 3 (by norm_num) (by norm_num)
        (by norm_num)).2.2.2.1,
    (cauchy_gm_weight_spec .double 2 0 1 3 (by norm_num) (by norm_num)
        (by norm_num)).2.2.2.2.2.2.2.2.2⟩

/-- Every one of the seven known method tags resolves to a weight function
(never to the error path), for any scaling and shape parameter — in
particular a zero scaling parameter is not guarded against. -/
lemma dispatch_known_ok (precision : Precision) (m : RobustKernelMethod)
    (s a : ℝ) :
    ∃ w, DISPATCH_ROBUST_KERNEL_FUNCTION precision (methodCode m) s a =
      Except.ok w := by
  cases m with
  | GeneralizedLoss =>
      rw [DISPATCH_ROBUST_KERNEL_FUNCTION]
      norm_num [methodCode]
      split_ifs <;> exact ⟨_, rfl⟩
  | _ => exact ⟨_, rfl⟩

/-- Claim C7: the L1 weight function is exactly `1/|r|` with no guard on the
residual, so the division by zero at `r = 0` is reachable and the weight
diverges as the residual approaches 0; likewise a zero scaling parameter is
not guarded against in any of the seven variants (resolution still hands the
unguarded formula to the caller). -/
theorem l1_unguarded_divergence (precision : Precision) (s a : ℝ)
    (m : RobustKernelMethod) :
    DISPATCH_ROBUST_KERNEL_FUNCTION precision (methodCode .L1Loss) s a =
      Except.ok L1Weight ∧
    L1Weight 0 = 1 / |(0 : ℝ)| ∧
    Filter.Tendsto L1Weight (nhdsWithin 0 {u : ℝ | u ≠ 0}) Filter.atTop ∧
    (∃ w, DISPATCH_ROBUST_KERNEL_FUNCTION precision (methodCode m) 0 a =
      Except.ok w) := by
  refine ⟨?_, rfl, ?_, dispatch_known_ok precision m 0 a⟩
  · simp [DISPATCH_ROBUST_KERNEL_FUNCTION, methodCode]
  · have heq : L1Weight = fun u : ℝ => |u|⁻¹ := by
      funext u
      simp [L1Weight, one_div]
    rw [heq]
    exact tendsto_inv_zero_atTop.comp tendsto_abs_nhdsWithin_zero

/-- Claim C4: if the method tag is none of the seven known variants,
resolution fails with the fatal error (the `utility::LogError` branch) and
never returns a default weight function. -/
theorem unknown_method_fatal (precision : Precision) (METHOD : Nat)
    (s a : ℝ) (h : ∀ m : RobustKernelMethod, methodCode m ≠ METHOD) :
    DISPATCH_ROBUST_KERNEL_FUNCTION precision METHOD s a =
      Except.error "Unsupported method." ∧
    ∀ w, DISPATCH_ROBUST_KERNEL_FUNCTION precision METHOD s a ≠
      Except.ok w := by
  have herr : DISPATCH_ROBUST_KERNEL_FUNCTION precision METHOD s a =
      Except.error "Unsupported method." := by
    rw [DISPATCH_ROBUST_KERNEL_FUNCTION,
      if_neg (Ne.symm (h .L2Loss)), if_neg (Ne.symm (h .L1Loss)),
      if_neg (Ne.symm (h .HuberLoss)), if_neg (Ne.symm (h .CauchyLoss)),
      if_neg (Ne.symm (h .GMLoss)), if_neg (Ne.symm (h .TukeyLoss)),
      if_neg (Ne.symm (h .GeneralizedLoss))]
  refine ⟨herr, fun w hw => ?_⟩
  rw [herr] at hw
  simp at hw

/-- Witness for C4 at the out-of-range method code 7: no variant has code 7
and resolution returns the fatal error. -/
theorem unknown_method_fatal_witness :
    (∀ m : RobustKernelMethod, methodCode m ≠ 7) ∧
    DISPATCH_ROBUST_KERNEL_FUNCTION .double 7 1 0 =
      Except.error "Unsupported method." :=
  ⟨fun m => by cases m <;> simp [methodCode],
    (unknown_method_fatal .double 7 1 0
      (fun m => by cases m <;> simp [methodCode])).1⟩

/-- Claim C8: resolution is deterministic — two resolutions of the same
configuration (same method code, scaling parameter, shape parameter and
precision) yield weight functions that agree on every residual. -/
theorem resolution_deterministic (precision : Precision) (METHOD : Nat)
    (s a r : ℝ) (f g : ℝ → ℝ)
    (h1 : DISPATCH_ROBUST_KERNEL_FUNCTION precision METHOD s a = Except.ok f)
    (h2 : DISPATCH_ROBUST_KERNEL_FUNCTION precision METHOD s a =
      Except.ok g) :
    f r = g r := by
  rw [h1] at h2
  cases h2
  rfl

/-- Witness for C8: two resolutions of the L2 configuration both return the
constant-1 weight, agreeing at residual 5. -/
theorem resolution_deterministic_witness :
    DISPATCH_ROBUST_KERNEL_FUNCTION .single (methodCode .L2Loss) 1 0 =
      Except.ok L2Weight ∧ L2Weight 5 = L2Weight 5 :=
  ⟨by simp [DISPATCH_ROBUST_KERNEL_FUNCTION, methodCode],
    resolution_deterministic .single (methodCode .L2Loss) 1 0 5 L2Weight
      L2Weight (by simp [DISPATCH_ROBUST_KERNEL_FUNCTION, methodCode])
      (by simp [DISPATCH_ROBUST_KERNEL_FUNCTION, methodCode])⟩

/-- Claim C9: for every method other than Generalized, the resolved weight
does not depend on the shape parameter: configurations differing only in the
shape parameter resolve to equal weights at every residual. -/
theorem shape_parameter_ignored (precision : Precision)
    (m : RobustKernelMethod) (s a a' r : ℝ)
    (hm : m ≠ RobustKernelMethod.GeneralizedLoss) :
    resolveThenApply precision (methodCode m) s a r =
      resolveThenApply precision (methodCode m) s a' r := by
  cases m
  case GeneralizedLoss => exact absurd rfl hm
  all_goals rfl

/-- Witness for C9: Huber with shape parameters 5 and 7 gives the same
weight at residual 2. -/
theorem shape_parameter_ignored_witness :
    RobustKernelMethod.HuberLoss ≠ RobustKernelMethod.GeneralizedLoss ∧
    resolveThenApply .single (methodCode .HuberLoss) 1 5 2 =
      resolveThenApply .single (methodCode .HuberLoss) 1 7 2 :=
  ⟨by decide,
    shape_parameter_ignored .single .HuberLoss 1 5 7 2 (by decide)⟩

/-- Claim C10: every resolved weight function is even in the residual — for
every method, configuration and residual, the weight at `r` equals the weight
at `-r`, because each formula reads the residual only through `|r|` or `r²`. -/
theorem weight_even (precision : Precision) (m : RobustKernelMethod)
    (s a r : ℝ) :
    resolveThenApply precision (methodCode m) s a r =
      resolveThenApply precision (methodCode m) s a (-r) := by
  cases m with
  | GeneralizedLoss =>
      simp only [resolveThenApply, DISPATCH_ROBUST_KERNEL_FUNCTION, methodCode]
      norm_num
      split_ifs <;>
        simp [GeneralizedConstWeight, GeneralizedZeroWeight,
          GeneralizedNegInfWeight, GeneralizedGeneralWeight, OPEN3D_SQUARE,
          Except.map, neg_div, neg_sq]
  | _ =>
      simp [resolveThenApply, DISPATCH_ROBUST_KERNEL_FUNCTION, methodCode,
        L2Weight, L1Weight, HuberWeight, CauchyWeight, GMWeight, TukeyWeight,
        OPEN3D_SQUARE, Except.map, neg_div, neg_sq, abs_neg]
